import Mathlib

/-!
Verification of the feedback-aggregation Cloudflare Worker (`src/index.ts`)
against its natural-language specification.

The worker's `fetch` handler is embedded shallowly:

* JavaScript values that flow through `JSON.parse` / the AI responses are
  modelled by the inductive type `Json`;
* the platform primitives `parseInt(s, 10)`, `String(n)`, `JSON.parse`,
  `Math.random()` and single-character global `String.prototype.replace`
  are modelled by `jsParseInt`, `jsIntToString`, an oracle parameter
  `jp : String -> Option Json`, a rational `q` in `[0,1)`, and `replAll`;
* every fallible external operation (D1 statements, KV get/put, AI calls)
  is an `Except Unit _` outcome supplied by the environment record
  `IngestEnv`, so theorems quantify over all success/failure patterns;
* KV writes are observed through a trace of attempted puts,
  `List (String × Json)` (a put of a string value is recorded as
  `Json.str`, the put of the serialized examples array is recorded as the
  array itself).

Each block of the handler (classifier call, count increment, summary
merge, examples update, the `/insights` item builder, the HTML escaper)
is embedded as its own definition, mirroring the source line by line.
-/

namespace FeedbackWorker

/-- A JavaScript/JSON value as it appears after `JSON.parse` or as an AI
binding result.  Numbers are modelled as integers (no claim under
verification depends on fractional values). -/
inductive Json where
  | null : Json
  | bool : Bool → Json
  | num : Int → Json
  | str : String → Json
  | arr : List Json → Json
  | obj : List (String × Json) → Json

/-- First-match lookup of a key in a JS object literal. -/
def jsLookup (k : String) : List (String × Json) → Option Json
  | [] => none
  | (k', v) :: rest => if k' = k then some v else jsLookup k rest

/-- Property access `j[k]` as used by the worker: `undefined` (here `none`)
on objects lacking the key and on non-object non-null values; the worker
never performs property access on `null` without a guard except where the
embedding handles it explicitly. -/
def jsGet (j : Json) (k : String) : Option Json :=
  match j with
  | .obj fields => jsLookup k fields
  | _ => none

/-- JavaScript truthiness of a `Json` value. -/
def jsTruthy : Json → Bool
  | .null => false
  | .bool b => b
  | .num n => n ≠ 0
  | .str s => s ≠ ""
  | .arr _ => true
  | .obj _ => true

/-- The nullish-coalescing operator `x ?? d` applied to the result of a
property access: both a missing key (`undefined`) and a stored `null`
fall back to the default. -/
def jsCoalesce (o : Option Json) (d : Json) : Json :=
  match o with
  | none => d
  | some .null => d
  | some v => v

/-- Decimal digits of a positive natural, most significant first, by
fuel-bounded structural recursion (`fuel ≥ n` suffices), so that it
reduces definitionally. -/
def natDigitsAux : Nat → Nat → List Char
  | 0, _ => []
  | _ + 1, 0 => []
  | fuel + 1, n + 1 =>
    natDigitsAux fuel ((n + 1) / 10) ++ [Nat.digitChar ((n + 1) % 10)]

/-- Model of JavaScript `String(n)` for a natural number. -/
def jsNatToString (n : Nat) : String :=
  if n = 0 then "0" else String.mk (natDigitsAux n n)

/-- Model of JavaScript `String(n)` for an integer. -/
def jsIntToString (v : Int) : String :=
  if v < 0 then "-" ++ jsNatToString v.natAbs else jsNatToString v.toNat

/-- Numeric value of a decimal digit character. -/
def digitVal (c : Char) : Nat := c.toNat - 48

/-- Big-endian evaluation of a list of decimal digit characters. -/
def natFromDigits (l : List Char) : Nat :=
  l.foldl (fun a c => 10 * a + digitVal c) 0

/-- Longest decimal-digit run at the front of the character list, as a
number; `none` models `NaN` (no digits at all). -/
def parseDigitRun (l : List Char) : Option Nat :=
  let ds := l.takeWhile (fun c => c.isDigit)
  if ds.isEmpty then none else some (natFromDigits ds)

/-- Model of JavaScript `parseInt(s, 10)`: skip leading whitespace, accept
an optional sign, read the longest digit run, ignore the rest; `none`
models `NaN`. -/
def jsParseInt (s : String) : Option Int :=
  match s.data.dropWhile (fun c => c.isWhitespace) with
  | [] => none
  | c :: rest =>
    if c = '-' then (parseDigitRun rest).map (fun n => -(n : Int))
    else if c = '+' then (parseDigitRun rest).map (fun n => (n : Int))
    else (parseDigitRun (c :: rest)).map (fun n => (n : Int))

/-- Increment applied to the value read from the count key, from
`src/index.ts` lines 136-141: a missing value yields 1, `parseInt`
`NaN` yields 1, and a parsed number `n` yields `n + 1`. -/
def jsIncrement (existing : Option String) : Int :=
  match existing with
  | none => 1
  | some s =>
    match jsParseInt s with
    | none => 1
    | some n => n + 1

/-- Model of JavaScript template-literal string coercion, used for the
KV key interpolations.  Arrays and objects are coerced opaquely; no
claim under verification exercises those cases. -/
def jsCoerceStr : Json → String
  | .null => "null"
  | .bool true => "true"
  | .bool false => "false"
  | .num n => jsIntToString n
  | .str s => s
  | .arr _ => "[array]"
  | .obj _ => "[object Object]"

/-- The guard at `src/index.ts` lines 107-113: the AI result contributes a
raw response exactly when it is an object whose `response` property is a
string. -/
def getResponse (j : Json) : Option String :=
  match j with
  | .obj fields =>
    match jsLookup "response" fields with
    | some (.str s) => some s
    | _ => none
  | _ => none

/-- `raw.indexOf c` over the character list. -/
def firstIdx (l : List Char) (c : Char) : Option Nat :=
  l.findIdx? (fun x => x = c)

/-- `raw.lastIndexOf c` over the character list. -/
def lastIdx (l : List Char) (c : Char) : Option Nat :=
  (l.reverse.findIdx? (fun x => x = c)).map (fun i => l.length - 1 - i)

/-- JavaScript `String.prototype.slice(a, b)` (with `0 ≤ a, b`): the
characters from position `a` up to but excluding `b`, empty when
`a ≥ b`. -/
def jsSlice (l : List Char) (a b : Nat) : List Char :=
  (l.take b).drop a

/-- The default classification kept when the AI call fails,
`src/index.ts` lines 97-99. -/
def defaultClassification : Json × Json × Json :=
  (.str "unknown", .str "unknown", .str "N/A")

/-- The classifier block, `src/index.ts` lines 96-129.  `ai` is the
outcome of `env.AI.run` (an exception or a result value); `jp` is the
`JSON.parse` oracle, returning `none` when parsing throws.  Returns
`(sentiment, category, summary)`. -/
def classifyResult (ai : Except Unit Json) (jp : String → Option Json) :
    Json × Json × Json :=
  match ai with
  | .error _ => defaultClassification
  | .ok aiResult =>
    match getResponse aiResult with
    | none => defaultClassification
    | some raw =>
      match firstIdx raw.data '{' , lastIdx raw.data '}' with
      | some firstBrace, some lastBrace =>
        let json := String.mk (jsSlice raw.data firstBrace (lastBrace + 1))
        match jp json with
        | none => defaultClassification
        | some .null => defaultClassification
        | some parsed =>
          (jsCoalesce (jsGet parsed "sentiment") (.str "unknown"),
           jsCoalesce (jsGet parsed "category") (.str "unknown"),
           jsCoalesce (jsGet parsed "summary") (.str "N/A"))
      | _, _ => defaultClassification

/-- A trace of attempted KV puts: key paired with the value handed to
`put` (string values as `Json.str`, the serialized examples array as the
array itself). -/
abbrev PutTrace := List (String × Json)

/-- The count-increment block, `src/index.ts` lines 131-145.  `g` is the
outcome of the KV `get` on the count key.  Returns the `occurrences`
value reported for this submission together with the attempted puts.  A
failing `get` is caught, leaving `occurrences = 0`, and control never
reaches the `put`; a failing `put` is caught after `occurrences` was
already assigned, so it changes nothing observable here. -/
def incrementCount (g : Except Unit (Option String)) (kvKey : String) :
    Int × PutTrace :=
  match g with
  | .error _ => (0, [])
  | .ok existing =>
    let occurrences := jsIncrement existing
    (occurrences, [(kvKey, .str (jsIntToString occurrences))])

/-- The summary block, `src/index.ts` lines 147-203.

The source region for the merge-on-existing branch (lines 156-200) is a
corrupted merge of two variants of the same logic: `const aiRes` is
declared twice in one scope (lines 162 and 169), lines 187-195 are a
stray fragment referencing an undefined `extractAndParseMerge` with an
orphaned closing brace, and the file carries two more closing than
opening braces.  This definition follows the one contiguous coherent
variant (lines 148-158, 168-186 and the surrounding catch handlers at
lines 196-203): on a merge-call error or a parse error the existing
summary is kept, per the source comments at lines 184 and 197.

`summary` is the classification summary, `g` the outcome of the KV get
on the summary key, `aiM` the outcome of the merge AI call, `jp` the
`JSON.parse` oracle, `pm` the outcome of the KV put of a merged value.
Returns `(category_summary, attempted puts)`. -/
def summaryStep (summary : Json) (g : Except Unit (Option String))
    (aiM : Except Unit Json) (jp : String → Option Json)
    (pm : Except Unit Unit) (sumKey : String) : Json × PutTrace :=
  match g with
  | .error _ => (summary, [])
  | .ok none => (summary, [(sumKey, summary)])
  | .ok (some existingSummary) =>
    let exJ : Json := .str existingSummary
    match aiM with
    | .error _ => (exJ, [])
    | .ok aiRes =>
      let textOut : String :=
        if jsTruthy aiRes then
          match getResponse aiRes with
          | some s => s.trim
          | none => match aiRes with | .str s => s.trim | _ => ""
        else match aiRes with | .str s => s.trim | _ => ""
      if textOut ≠ "" then
        match jp textOut with
        | none => (exJ, [])
        | some .null => (exJ, [])
        | some parsed =>
          let merged := jsCoalesce (jsGet parsed "merged_summary") exJ
          match pm with
          | .ok _ => (merged, [(sumKey, merged)])
          | .error _ => (exJ, [(sumKey, merged)])
      else
        match aiRes with
        | .arr l =>
          let merged := jsCoalesce (jsGet (.arr l) "merged_summary") exJ
          match pm with
          | .ok _ => (merged, [(sumKey, merged)])
          | .error _ => (exJ, [(sumKey, merged)])
        | .obj fields =>
          let merged := jsCoalesce (jsGet (.obj fields) "merged_summary") exJ
          match pm with
          | .ok _ => (merged, [(sumKey, merged)])
          | .error _ => (exJ, [(sumKey, merged)])
        | _ => (summary, [])

/-- The example-set computation inside the examples block,
`src/index.ts` lines 209-228: the decision tree over the raw stored
value.  `q` models the `Math.random()` draw. -/
def addExample (raw : Option String) (jp : String → Option Json)
    (q : ℚ) (text : String) : List Json :=
  match raw with
  | none => [.str text]
  | some s =>
    match jp s with
    | none => [.str text]
    | some (.arr l) =>
      if l.length < 3 then l ++ [.str text]
      else l.set (Int.toNat ⌊q * 3⌋) (.str text)
    | some _ => [.str text]

/-- The examples block, `src/index.ts` lines 205-232.  Returns the
`examples` value reported for this submission and the attempted puts. -/
def examplesStep (text : String) (g : Except Unit (Option String))
    (jp : String → Option Json) (q : ℚ) (exKey : String) :
    Json × PutTrace :=
  match g with
  | .error _ => (.arr [], [])
  | .ok raw =>
    let examples := addExample raw jp q text
    (.arr examples, [(exKey, .arr examples)])

/-- Outcomes of the external operations performed by one ingest request
(`GET /?text=...`).  Each field is the outcome the environment would
produce for the single call the handler makes to it. -/
structure IngestEnv where
  dbCreate : Except Unit Unit
  dbInsert : Except Unit Unit
  aiClassify : Except Unit Json
  jsonParse : String → Option Json
  kvGetCount : Except Unit (Option String)
  kvGetSummary : Except Unit (Option String)
  aiMerge : Except Unit Json
  kvPutSummary : Except Unit Unit
  kvGetExamples : Except Unit (Option String)
  rand : ℚ

/-- The response of the ingest path: the 400 missing-parameter error, the
500 database error, or the 200 success body
`{success: true, text, sentiment, category, summary, category_summary,
occurrences, examples}`. -/
inductive IngestOutcome where
  | missingText : IngestOutcome
  | dbError : IngestOutcome
  | ok : (sentiment category summary category_summary : Json) →
      (occurrences : Int) → (examples : Json) → IngestOutcome

/-- HTTP status of an ingest outcome. -/
def IngestOutcome.status : IngestOutcome → Nat
  | .missingText => 400
  | .dbError => 500
  | .ok _ _ _ _ _ _ => 200

/-- Whether the response body carries `success: true`. -/
def IngestOutcome.isSuccess : IngestOutcome → Bool
  | .ok _ _ _ _ _ _ => true
  | _ => false

/-- The `occurrences` field of a success body (0 otherwise). -/
def IngestOutcome.occurrencesOf : IngestOutcome → Int
  | .ok _ _ _ _ o _ => o
  | _ => 0

/-- The ingest path of the `fetch` handler, `src/index.ts` lines 74-237
(for a request whose pathname is neither `/stats` nor `/insights`):
missing or empty `text` yields 400; a failure of either D1 statement is
caught at line 235 and yields 500; afterwards the classifier, count,
summary and examples blocks run in order, each swallowing its own
failures, and the success body is returned.  Also returns the trace of
attempted KV puts. -/
def fetchIngest (text : Option String) (e : IngestEnv) :
    IngestOutcome × PutTrace :=
  match text with
  | none => (.missingText, [])
  | some t =>
    if t = "" then (.missingText, [])
    else
      match e.dbCreate with
      | .error _ => (.dbError, [])
      | .ok _ =>
        match e.dbInsert with
        | .error _ => (.dbError, [])
        | .ok _ =>
          let c := classifyResult e.aiClassify e.jsonParse
          let sentiment := c.1
          let category := c.2.1
          let summary := c.2.2
          let catStr := jsCoerceStr category
          let r1 := incrementCount e.kvGetCount ("category:" ++ catStr)
          let r2 := summaryStep summary e.kvGetSummary e.aiMerge
            e.jsonParse e.kvPutSummary ("category_summary:" ++ catStr)
          let r3 := examplesStep t e.kvGetExamples e.jsonParse e.rand
            ("category_examples:" ++ catStr)
          (.ok sentiment category summary r2.1 r1.1 r3.1,
           r1.2 ++ r2.2 ++ r3.2)

/-- One entry of the `/insights` view, `src/index.ts` lines 45-59. -/
structure InsightItem where
  category : String
  occurrences : Int
  category_summary : Option String
  examples : Json

/-- Building one `/insights` entry from the three stored values of a
category, `src/index.ts` lines 46-59: `occurrences` is
`val === null ? 0 : (parseInt(val, 10) || 0)`; `category_summary` is the
stored value or null; `examples` starts as `[]` and, when the stored
value is truthy, becomes whatever `JSON.parse` returns (there is no
array check on this path), reverting to `[]` only when parsing throws. -/
def insightsEntry (category : String)
    (countVal sumVal exVal : Option String)
    (jp : String → Option Json) : InsightItem :=
  { category := category
    occurrences :=
      match countVal with
      | none => 0
      | some v =>
        match jsParseInt v with
        | none => 0
        | some n => n
    category_summary := sumVal
    examples :=
      match exVal with
      | none => .arr []
      | some s =>
        if s = "" then .arr []
        else
          match jp s with
          | none => .arr []
          | some j => j }

/-- Replacement of every occurrence of the character `c` by the string
`rep`, modelling `s.replace(/c/g, rep)` for a single-character
pattern. -/
def replAll (c : Char) (rep : List Char) : List Char → List Char
  | [] => []
  | x :: xs => (if x = c then rep else [x]) ++ replAll c rep xs

/-- The `esc` helper of the HTML view, `src/index.ts` line 64: chained
global replacement of `&`, `<`, `>` and `"`. -/
def escChars (l : List Char) : List Char :=
  replAll '"' "&quot;".data
    (replAll '>' "&gt;".data
      (replAll '<' "&lt;".data
        (replAll '&' "&amp;".data l)))

/-- String-level `esc`. -/
def esc (s : String) : String := String.mk (escChars s.data)

/-- Per-character entity map: the four special characters go to their
HTML entities, every other character stands for itself. -/
def escChar (x : Char) : List Char :=
  if x = '&' then "&amp;".data
  else if x = '<' then "&lt;".data
  else if x = '>' then "&gt;".data
  else if x = '"' then "&quot;".data
  else [x]

/-- `(examples || []).join(' | ')` from `src/index.ts` line 65: a falsy
value is replaced by the empty array before joining; calling `.join` on
a truthy non-array throws a `TypeError` (modelled as `Except.error`). -/
def joinExamples (j : Json) : Except Unit String :=
  match j with
  | .arr l => .ok (String.intercalate " | " (l.map jsCoerceStr))
  | v => if jsTruthy v then .error () else .ok ""

/-- One `<tr>` row of the `/insights` HTML table, `src/index.ts`
line 65. -/
def htmlRow (category : String) (occurrences : Int)
    (category_summary : Option String) (examples : Json) :
    Except Unit String :=
  (joinExamples examples).map (fun joined =>
    "<tr><td>" ++ esc category ++ "</td><td>" ++
      jsIntToString occurrences ++ "</td><td>" ++
      esc (category_summary.getD "") ++ "</td><td>" ++
      esc joined ++ "</td></tr>")

/-- One sequential example-set update at the level of the stored array:
the decision tree of `addExample` applied to the current slot content
(`none` = key absent, `some l` = the previously stored array, relying on
exact JSON round-tripping of the serialized array through the store). -/
def exUpdate (s : Option (List Json)) (t : String) (q : ℚ) : List Json :=
  match s with
  | none => [.str t]
  | some l =>
    if l.length < 3 then l ++ [.str t]
    else l.set (Int.toNat ⌊q * 3⌋) (.str t)

/-- The examples slot of one category after a sequence of updates
`(text, random draw)`, starting from an absent key. -/
def exAfter (updates : List (String × ℚ)) : Option (List Json) :=
  updates.foldl (fun s u => some (exUpdate s u.1 u.2)) none

/-- Length of the stored examples slot (0 when absent). -/
def exLen (s : Option (List Json)) : Nat :=
  match s with
  | none => 0
  | some l => l.length

/-- State of the lost-update counter machine for `n` concurrent
submissions racing on one category count key: the key's content, each
worker's captured read (set once, `none` = not read yet), and whether
each worker has performed its write. -/
structure CState (n : Nat) where
  store : Option String
  readv : Fin n → Option (Option String)
  done : Fin n → Bool

/-- The initial state: absent key, no reads, no writes. -/
def cInit (n : Nat) : CState n :=
  { store := none, readv := fun _ => none, done := fun _ => false }

/-- An interleaving event: worker `i` performs its KV `get`, or its
`put` of the value computed from its captured read
(`String(occurrences)` for `occurrences` from lines 136-141). -/
inductive CEv (n : Nat) where
  | rd : Fin n → CEv n
  | wr : Fin n → CEv n

/-- One step of the machine; `none` when the event is not enabled (the
worker already read, or writes without having read, or writes twice). -/
def cStep {n : Nat} (s : CState n) : CEv n → Option (CState n)
  | .rd i =>
    match s.readv i with
    | some _ => none
    | none => some { s with readv := Function.update s.readv i (some s.store) }
  | .wr i =>
    if s.done i then none
    else
      match s.readv i with
      | none => none
      | some r =>
        some { s with
          store := some (jsIntToString (jsIncrement r))
          done := Function.update s.done i true }

/-- Running the machine over a schedule of events. -/
def cRun {n : Nat} (s : CState n) : List (CEv n) → Option (CState n)
  | [] => some s
  | e :: es =>
    match cStep s e with
    | none => none
    | some s' => cRun s' es

/-- The number of workers whose write has completed. -/
def doneCount {n : Nat} (s : CState n) : Nat :=
  (Finset.univ.filter (fun i => s.done i = true)).card

/-- Invariant of the counter machine: the key is absent only while no
write has completed; once present it holds `String(v)` for some
`1 ≤ v ≤` number of completed writes; and every captured read is either
the absent marker or such a value. -/
def CInv {n : Nat} (s : CState n) : Prop :=
  (s.store = none → doneCount s = 0) ∧
  (∀ str, s.store = some str →
    ∃ v : Nat, 1 ≤ v ∧ v ≤ doneCount s ∧ str = jsIntToString (v : Int)) ∧
  (∀ i r, s.readv i = some r →
    r = none ∨ ∃ u : Nat, 1 ≤ u ∧ u ≤ doneCount s ∧
      r = some (jsIntToString (u : Int)))

/-! ### Round-trip of `String(n)` through `parseInt(·, 10)` -/

theorem digitVal_digitChar : ∀ d, d < 10 → digitVal (Nat.digitChar d) = d := by
  decide

theorem digitChar_props : ∀ d, d < 10 →
    (Nat.digitChar d).isDigit = true ∧ (Nat.digitChar d).isWhitespace = false ∧
      Nat.digitChar d ≠ '-' ∧ Nat.digitChar d ≠ '+' := by
  decide

theorem natDigitsAux_mem : ∀ fuel n c, c ∈ natDigitsAux fuel n →
    ∃ d, d < 10 ∧ c = Nat.digitChar d := by
  intro fuel
  induction fuel with
  | zero => intro n c h; simp [natDigitsAux] at h
  | succ f ih =>
    intro n c h
    match n with
    | 0 => simp [natDigitsAux] at h
    | m + 1 =>
      simp only [natDigitsAux, List.mem_append, List.mem_singleton] at h
      rcases h with h | h
      · exact ih _ _ h
      · exact ⟨(m + 1) % 10, Nat.mod_lt _ (by norm_num), h⟩

theorem natFromDigits_append (l : List Char) (c : Char) :
    natFromDigits (l ++ [c]) = 10 * natFromDigits l + digitVal c := by
  simp [natFromDigits, List.foldl_append]

theorem natFromDigits_natDigitsAux : ∀ fuel n, n ≤ fuel →
    natFromDigits (natDigitsAux fuel n) = n := by
  intro fuel
  induction fuel with
  | zero =>
    intro n hn
    interval_cases n
    simp [natDigitsAux, natFromDigits]
  | succ f ih =>
    intro n hn
    match n with
    | 0 => simp [natDigitsAux, natFromDigits]
    | m + 1 =>
      have hdiv : (m + 1) / 10 ≤ f := by
        have h1 : (m + 1) / 10 < m + 1 := Nat.div_lt_self (Nat.succ_pos m) (by norm_num)
        omega
      rw [natDigitsAux, natFromDigits_append, ih _ hdiv,
        digitVal_digitChar _ (Nat.mod_lt _ (by norm_num))]
      exact Nat.div_add_mod (m + 1) 10

theorem takeWhile_of_all {p : Char → Bool} :
    ∀ l : List Char, (∀ c ∈ l, p c = true) → l.takeWhile p = l := by
  intro l
  induction l with
  | nil => intro _; rfl
  | cons a t ih =>
    intro h
    rw [List.takeWhile_cons, if_pos (h a (List.mem_cons_self a t))]
    rw [ih (fun c hc => h c (List.mem_cons_of_mem a hc))]

theorem jsParseInt_mk_digits (l : List Char) (hne : l ≠ [])
    (h : ∀ c ∈ l, c.isDigit = true ∧ c.isWhitespace = false ∧
      c ≠ '-' ∧ c ≠ '+') :
    jsParseInt (String.mk l) = some ((natFromDigits l : Nat) : Int) := by
  obtain ⟨c, rest, rfl⟩ := List.exists_cons_of_ne_nil hne
  have hc := h c (List.mem_cons_self c rest)
  show jsParseInt ⟨c :: rest⟩ = _
  unfold jsParseInt
  have hdata : (String.mk (c :: rest)).data = c :: rest := rfl
  rw [hdata, List.dropWhile_cons, if_neg (by simp [hc.2.1])]
  dsimp only
  rw [if_neg hc.2.2.1, if_neg hc.2.2.2]
  unfold parseDigitRun
  rw [takeWhile_of_all _ (fun x hx => (h x hx).1)]
  simp

theorem jsParseInt_jsNatToString (n : Nat) :
    jsParseInt (jsNatToString n) = some (n : Int) := by
  by_cases hn : n = 0
  · subst hn; rfl
  · rw [jsNatToString, if_neg hn]
    have hne : natDigitsAux n n ≠ [] := by
      match n, hn with
      | m + 1, _ => simp [natDigitsAux]
    rw [jsParseInt_mk_digits _ hne]
    · rw [natFromDigits_natDigitsAux n n le_rfl]
    · intro c hc
      obtain ⟨d, hd, rfl⟩ := natDigitsAux_mem n n c hc
      exact digitChar_props d hd

theorem jsIntToString_ofNat (n : Nat) :
    jsIntToString (n : Int) = jsNatToString n := by
  rw [jsIntToString, if_neg (by omega)]
  norm_num

theorem jsIncrement_roundTrip (n : Nat) :
    jsIncrement (some (jsIntToString (n : Int))) = (n : Int) + 1 := by
  rw [jsIntToString_ofNat, jsIncrement, jsParseInt_jsNatToString]

/-! ### The HTML escaper rewrites character-wise -/

theorem replAll_append (c : Char) (r a b : List Char) :
    replAll c r (a ++ b) = replAll c r a ++ replAll c r b := by
  induction a with
  | nil => rfl
  | cons x xs ih => simp [replAll, ih]

theorem replAll_eq_flatMap (c : Char) (r : List Char) (l : List Char) :
    replAll c r l = l.flatMap (fun x => if x = c then r else [x]) := by
  induction l with
  | nil => rfl
  | cons x xs ih => simp [replAll, ih]

theorem replAll_flatMap (c : Char) (r : List Char) (g : Char → List Char)
    (l : List Char) :
    replAll c r (l.flatMap g) = l.flatMap (fun x => replAll c r (g x)) := by
  induction l with
  | nil => rfl
  | cons x xs ih => simp [List.flatMap_cons, replAll_append, ih]

theorem escChar_composite (x : Char) :
    replAll '"' "&quot;".data (replAll '>' "&gt;".data
      (replAll '<' "&lt;".data (if x = '&' then "&amp;".data else [x]))) =
      escChar x := by
  by_cases h1 : x = '&'
  · subst h1; decide
  by_cases h2 : x = '<'
  · subst h2; decide
  by_cases h3 : x = '>'
  · subst h3; decide
  by_cases h4 : x = '"'
  · subst h4; decide
  simp [replAll, escChar, h1, h2, h3, h4]

theorem escChars_eq_flatMap (l : List Char) :
    escChars l = l.flatMap escChar := by
  unfold escChars
  rw [replAll_eq_flatMap '&', replAll_flatMap, replAll_flatMap, replAll_flatMap]
  exact congrArg l.flatMap (funext escChar_composite)

/-! ### Claim theorems -/

/-- C10: in the HTML rendering of `/insights`, every occurrence of the
characters `&`, `<`, `>` and `"` within the category name, the category
summary, and the joined example texts is replaced by its HTML entity
before inclusion in the table row: the emitted row equals the template
in which each of those three fields appears only through the
character-wise entity map `escChar`. -/
theorem c10_html_escaping (category : String) (occurrences : Int)
    (category_summary : Option String) (exl : List Json) :
    htmlRow category occurrences category_summary (.arr exl) =
      .ok ("<tr><td>" ++ String.mk (category.data.flatMap escChar) ++
        "</td><td>" ++ jsIntToString occurrences ++ "</td><td>" ++
        String.mk ((category_summary.getD "").data.flatMap escChar) ++
        "</td><td>" ++
        String.mk ((String.intercalate " | "
          (exl.map jsCoerceStr)).data.flatMap escChar) ++
        "</td></tr>") := by
  unfold htmlRow joinExamples esc
  simp [escChars_eq_flatMap, Except.map]

/-- C2 counterexample: for the stored count value `"-5"` the increment
block computes `-5 + 1 = -4` and writes `"-4"`, not
`max(-5, 0) + 1 = 1` as the claim states. -/
theorem c2_counterexample :
    incrementCount (Except.ok (some "-5")) "category:unknown" =
      (-4, [("category:unknown", Json.str "-4")]) ∧ (-4 : Int) ≠ 1 := by
  refine ⟨rfl, by decide⟩

/-- C2 amended: the increment block reads the current value and returns
`1` when it is missing, `1` when `parseInt` yields `NaN`, and `n + 1`
when it parses to `n` (so a stored negative `n` yields `n + 1`, not
`1`); it writes `String(newValue)` and returns the new value. -/
theorem c2_increment_amended (v : Option String) (key : String) :
    incrementCount (.ok v) key =
      (jsIncrement v, [(key, .str (jsIntToString (jsIncrement v)))]) ∧
    jsIncrement none = 1 ∧
    (∀ s, jsParseInt s = none → jsIncrement (some s) = 1) ∧
    (∀ s n, jsParseInt s = some n → jsIncrement (some s) = n + 1) := by
  refine ⟨rfl, rfl, ?_, ?_⟩
  · intro s h; simp [jsIncrement, h]
  · intro s n h; simp [jsIncrement, h]

/-- C2 witness: a stored `"7"` yields `8`, written as `"8"`; a stored
non-numeric `"abc"` yields `1`. -/
theorem c2_increment_amended_witness :
    incrementCount (.ok (some "7")) "category:unknown" =
      (8, [("category:unknown", Json.str "8")]) ∧
    jsIncrement (some "abc") = 1 := by
  constructor
  · exact ((c2_increment_amended (some "7") "category:unknown").1).trans rfl
  · exact (c2_increment_amended (some "abc") "k").2.2.1 "abc" (by decide)

/-- C3 counterexample: when the KV read of the count fails, the catch
leaves `occurrences = 0` and control never reaches the `put`: the trace
of attempted writes is empty, contradicting the claim that the write of
an incremented count is still attempted. -/
theorem c3_counterexample :
    incrementCount (Except.error ()) "category:unknown" = (0, []) := rfl

/-- C3 amended: when the KV read of the category count fails, the
request does not fail: the response still has status 200 with
`success: true` and reports `occurrences = 0` — but no count write is
attempted, because the `put` sits after the `get` in the same `try`
block and is skipped by the `catch`. -/
theorem c3_read_failure_amended (e : IngestEnv) (t key : String)
    (ht : t ≠ "") (h1 : e.dbCreate = Except.ok ())
    (h2 : e.dbInsert = Except.ok ())
    (hg : e.kvGetCount = Except.error ()) :
    incrementCount e.kvGetCount key = (0, []) ∧
    (fetchIngest (some t) e).1.status = 200 ∧
    (fetchIngest (some t) e).1.isSuccess = true ∧
    (fetchIngest (some t) e).1.occurrencesOf = 0 := by
  rw [hg]
  refine ⟨rfl, ?_⟩
  unfold fetchIngest
  rw [h1, h2]
  simp [ht, hg, incrementCount, IngestOutcome.status, IngestOutcome.isSuccess,
    IngestOutcome.occurrencesOf]

/-- C3 witness: a concrete environment whose count read fails (and whose
other aggregation calls fail as well) still answers 200/success with
`occurrences = 0` and attempts no count write. -/
theorem c3_read_failure_amended_witness :
    incrementCount (IngestEnv.kvGetCount
      ⟨.ok (), .ok (), .error (), fun _ => none, .error (), .error (),
        .error (), .error (), .error (), 0⟩) "category:unknown" = (0, []) ∧
    (fetchIngest (some "slow checkout")
      ⟨.ok (), .ok (), .error (), fun _ => none, .error (), .error (),
        .error (), .error (), .error (), 0⟩).1.status = 200 ∧
    (fetchIngest (some "slow checkout")
      ⟨.ok (), .ok (), .error (), fun _ => none, .error (), .error (),
        .error (), .error (), .error (), 0⟩).1.isSuccess = true ∧
    (fetchIngest (some "slow checkout")
      ⟨.ok (), .ok (), .error (), fun _ => none, .error (), .error (),
        .error (), .error (), .error (), 0⟩).1.occurrencesOf = 0 :=
  c3_read_failure_amended _ "slow checkout" "category:unknown"
    (by decide) rfl rfl rfl

/-- C4, the intended fallback (the source region for the merge branch,
lines 156-200 of `src/index.ts`, is syntactically corrupted; this is the
reconstructed contiguous variant): when a summary already exists and the
merge AI call fails, the summary step returns the existing stored
summary unchanged and attempts no write. -/
theorem c4_merge_error_keeps_existing (summary : Json) (ex : String)
    (jp : String → Option Json) (pm : Except Unit Unit) (key : String) :
    summaryStep summary (.ok (some ex)) (.error ()) jp pm key =
      (.str ex, []) := rfl

/-- C6: the example-set update returns `[newText]` when the stored value
is absent, unparsable, or not an array; appends when the array has fewer
than 3 items; and when it has exactly 3 items overwrites the slot at
index `⌊random * 3⌋`, which ranges uniformly over `{0, 1, 2}` (each
index is hit exactly on an interval of draws of length 1/3) and leaves
the other slots unchanged. -/
theorem c6_add_example (jp : String → Option Json) (q : ℚ) (t s : String) :
    addExample none jp q t = [.str t] ∧
    (jp s = none → addExample (some s) jp q t = [.str t]) ∧
    (∀ j, jp s = some j → (∀ l, j ≠ .arr l) →
      addExample (some s) jp q t = [.str t]) ∧
    (∀ l, jp s = some (.arr l) → l.length < 3 →
      addExample (some s) jp q t = l ++ [.str t]) ∧
    (∀ l, jp s = some (.arr l) → l.length = 3 → 0 ≤ q → q < 1 →
      addExample (some s) jp q t = l.set (Int.toNat ⌊q * 3⌋) (.str t) ∧
      Int.toNat ⌊q * 3⌋ < 3 ∧
      (∀ i, i ≠ Int.toNat ⌊q * 3⌋ →
        (l.set (Int.toNat ⌊q * 3⌋) (.str t)).get? i = l.get? i) ∧
      (∀ k : Nat, k < 3 → (Int.toNat ⌊q * 3⌋ = k ↔
        (k : ℚ) / 3 ≤ q ∧ q < ((k : ℚ) + 1) / 3))) := by
  have hfloor : 0 ≤ q → q < 1 → Int.toNat ⌊q * 3⌋ < 3 := by
    intro h0 h1
    have h3 : ⌊q * 3⌋ < 3 := by
      rw [Int.floor_lt]
      push_cast
      nlinarith
    omega
  refine ⟨rfl, ?_, ?_, ?_, ?_⟩
  · intro h; simp [addExample, h]
  · intro j hj hne
    cases j with
    | arr l => exact absurd rfl (hne l)
    | null => simp [addExample, hj]
    | bool b => simp [addExample, hj]
    | num n => simp [addExample, hj]
    | str s2 => simp [addExample, hj]
    | obj o => simp [addExample, hj]
  · intro l hl hlen; simp [addExample, hl, hlen]
  · intro l hl hlen h0 h1
    have hq0 : (0 : ℤ) ≤ ⌊q * 3⌋ := Int.floor_nonneg.mpr (by nlinarith)
    refine ⟨by simp [addExample, hl, hlen], hfloor h0 h1, ?_, ?_⟩
    · intro i hi
      exact List.get?_set_ne _ _ (fun h => hi h.symm)
    · intro k hk
      constructor
      · intro hfl
        have : ⌊q * 3⌋ = (k : ℤ) := by omega
        rw [Int.floor_eq_iff] at this
        constructor
        · rw [div_le_iff (by norm_num : (0:ℚ) < 3)]
          calc (k : ℚ) ≤ q * 3 := by exact_mod_cast this.1
          _ = q * 3 := rfl
        · rw [lt_div_iff (by norm_num : (0:ℚ) < 3)]
          calc q * 3 < (k : ℚ) + 1 := by exact_mod_cast this.2
          _ = ((k : ℚ) + 1) := rfl
      · intro ⟨ha, hb⟩
        have hge : ((k : ℤ) : ℚ) ≤ q * 3 := by
          push_cast
          rw [div_le_iff (by norm_num : (0:ℚ) < 3)] at ha
          linarith
        have hlt : q * 3 < ((k : ℤ) : ℚ) + 1 := by
          push_cast
          rw [lt_div_iff (by norm_num : (0:ℚ) < 3)] at hb
          linarith
        have : ⌊q * 3⌋ = (k : ℤ) := by
          rw [Int.floor_eq_iff]
          exact ⟨hge, hlt⟩
        omega

/-- C6 witness: with a stored full set `["a","b","c"]` and draw `1/2`
(index 1) the middle slot is replaced; an absent set yields the
singleton; an under-capacity set gets the new text appended. -/
theorem c6_add_example_witness :
    addExample none (fun _ => none) (1/2) "x" = [.str "x"] ∧
    addExample (some "bad") (fun _ => none) (1/2) "x" = [.str "x"] ∧
    addExample (some "cur")
      (fun s => if s = "cur" then some (.arr [.str "a", .str "b"]) else none)
      (1/2) "x" = [.str "a", .str "b", .str "x"] ∧
    addExample (some "cur")
      (fun s => if s = "cur" then
        some (.arr [.str "a", .str "b", .str "c"]) else none)
      (1/2) "x" = [.str "a", .str "x", .str "c"] := by
  refine ⟨(c6_add_example (fun _ => none) (1/2) "x" "cur").1,
    (c6_add_example (fun _ => none) (1/2) "x" "bad").2.1 rfl,
    (c6_add_example _ (1/2) "x" "cur").2.2.2.1
      [.str "a", .str "b"] rfl (by norm_num), ?_⟩
  have h := ((c6_add_example
    (fun s => if s = "cur" then
      some (.arr [.str "a", .str "b", .str "c"]) else none)
    (1/2) "x" "cur").2.2.2.2 [.str "a", .str "b", .str "c"] rfl rfl
    (by norm_num) (by norm_num)).1
  rw [h]
  norm_num

/-- C8 counterexample: with the stored examples value `"5"` (valid JSON
but not a sequence of strings), the `/insights` entry's examples field
is the parsed number `5`, not the empty sequence the claim requires —
this path has no array check. -/
theorem c8_counterexample :
    (insightsEntry "foo" (some "2") none (some "5")
      (fun s => if s = "5" then some (.num 5) else none)).examples =
        Json.num 5 ∧
    Json.num 5 ≠ Json.arr [] :=
  ⟨rfl, fun h => Json.noConfusion h⟩

/-- C8 amended: in a `/insights` entry, `category_summary` is null
exactly when no summary value is stored; `examples` is the empty
sequence when the stored value is absent, empty, or `JSON.parse` throws
on it; but when parsing succeeds the parsed value is used as-is, even
when it is not a sequence of strings. -/
theorem c8_insights_amended (category : String) (cv ex : Option String)
    (jp : String → Option Json) (s : String) :
    (insightsEntry category cv none ex jp).category_summary = none ∧
    (insightsEntry category cv none none jp).examples = .arr [] ∧
    (insightsEntry category cv none (some "") jp).examples = .arr [] ∧
    (jp s = none →
      (insightsEntry category cv none (some s) jp).examples = .arr []) ∧
    (∀ j, jp s = some j → s ≠ "" →
      (insightsEntry category cv none (some s) jp).examples = j) := by
  refine ⟨rfl, rfl, rfl, ?_, ?_⟩
  · intro h
    by_cases hs : s = ""
    · subst hs; rfl
    · simp [insightsEntry, hs, h]
  · intro j hj hs
    simp [insightsEntry, hs, hj]

/-- C8 witness: an absent summary yields null; an absent, empty, or
unparsable examples value yields the empty array; a parsable value is
passed through. -/
theorem c8_insights_amended_witness :
    (insightsEntry "billing" (some "1") none none
      (fun _ => none)).category_summary = none ∧
    (insightsEntry "billing" (some "1") none none
      (fun _ => none)).examples = Json.arr [] ∧
    (insightsEntry "billing" (some "1") none (some "oops")
      (fun _ => none)).examples = Json.arr [] ∧
    (insightsEntry "billing" (some "1") none (some "ok")
      (fun s => if s = "ok" then some (.arr [.str "fine"]) else none)).examples
        = Json.arr [.str "fine"] :=
  ⟨(c8_insights_amended "billing" (some "1") none (fun _ => none) "z").1,
   (c8_insights_amended "billing" (some "1") none (fun _ => none) "z").2.1,
   (c8_insights_amended "billing" (some "1") none (fun _ => none) "oops").2.2.2.1 rfl,
   (c8_insights_amended "billing" (some "1") none
     (fun s => if s = "ok" then some (.arr [.str "fine"]) else none) "ok").2.2.2.2
     (Json.arr [.str "fine"]) rfl (by decide)⟩

/-- C5: every classifier failure mode — the AI call throwing, a result
without a string `response`, a response without `{` or without `}`,
`JSON.parse` throwing on the brace-delimited slice — yields exactly the
default `{sentiment: "unknown", category: "unknown", summary: "N/A"}`;
when parsing succeeds, each key missing from the parsed object falls
back to its own default individually; and no classifier outcome affects
the success of the request once the raw submission is persisted. -/
theorem c5_classifier_fallback (jp : String → Option Json) (raw : String)
    (e : IngestEnv) (t : String) :
    classifyResult (.error ()) jp = defaultClassification ∧
    (∀ j, getResponse j = none →
      classifyResult (.ok j) jp = defaultClassification) ∧
    (∀ j, getResponse j = some raw →
      firstIdx raw.data '{' = none ∨ lastIdx raw.data '}' = none →
      classifyResult (.ok j) jp = defaultClassification) ∧
    (∀ j fb lb, getResponse j = some raw →
      firstIdx raw.data '{' = some fb → lastIdx raw.data '}' = some lb →
      jp (String.mk (jsSlice raw.data fb (lb + 1))) = none →
      classifyResult (.ok j) jp = defaultClassification) ∧
    (∀ j fb lb pf, getResponse j = some raw →
      firstIdx raw.data '{' = some fb → lastIdx raw.data '}' = some lb →
      jp (String.mk (jsSlice raw.data fb (lb + 1))) = some (.obj pf) →
      (jsLookup "sentiment" pf = none →
        (classifyResult (.ok j) jp).1 = .str "unknown") ∧
      (jsLookup "category" pf = none →
        (classifyResult (.ok j) jp).2.1 = .str "unknown") ∧
      (jsLookup "summary" pf = none →
        (classifyResult (.ok j) jp).2.2 = .str "N/A")) ∧
    (t ≠ "" → e.dbCreate = .ok () → e.dbInsert = .ok () →
      (fetchIngest (some t) e).1.status = 200 ∧
      (fetchIngest (some t) e).1.isSuccess = true) := by
  refine ⟨rfl, ?_, ?_, ?_, ?_, ?_⟩
  · intro j h; simp [classifyResult, h]
  · intro j h hbr
    cases hf : firstIdx raw.data '{' with
    | none =>
      cases hl : lastIdx raw.data '}' with
      | none => simp [classifyResult, h, hf, hl]
      | some lb => simp [classifyResult, h, hf, hl]
    | some fb =>
      cases hl : lastIdx raw.data '}' with
      | none => simp [classifyResult, h, hf, hl]
      | some lb =>
        rcases hbr with hb | hb
        · rw [hf] at hb; cases hb
        · rw [hl] at hb; cases hb
  · intro j fb lb h hf hl hp
    simp [classifyResult, h, hf, hl, hp]
  · intro j fb lb pf h hf hl hp
    refine ⟨?_, ?_, ?_⟩ <;>
      exact fun hk => by
        simp [classifyResult, h, hf, hl, hp, jsGet, hk, jsCoalesce]
  · intro ht h1 h2
    unfold fetchIngest
    rw [h1, h2]
    simp [ht, IngestOutcome.status, IngestOutcome.isSuccess]

/-- C5 witness: an AI failure yields the defaults; a brace-free response
yields the defaults; a parsed object missing `category` falls back to
`"unknown"` for that key; and with a failing classifier the request
still answers 200/success. -/
theorem c5_classifier_fallback_witness :
    classifyResult (.error ()) (fun _ => none) = defaultClassification ∧
    classifyResult (.ok (.obj [("response", .str "no json here")]))
      (fun _ => none) = defaultClassification ∧
    (classifyResult
      (.ok (.obj [("response", .str "\x7b\"sentiment\":\"positive\"\x7d")]))
      (fun s => if s = "\x7b\"sentiment\":\"positive\"\x7d" then
        some (.obj [("sentiment", .str "positive")]) else none)).2.1 =
      Json.str "unknown" ∧
    (fetchIngest (some "love it")
      ⟨.ok (), .ok (), .error (), fun _ => none, .error (), .error (),
        .error (), .error (), .error (), 0⟩).1.status = 200 := by
  refine ⟨(c5_classifier_fallback (fun _ => none) "" ⟨.ok (), .ok (),
      .error (), fun _ => none, .error (), .error (), .error (), .error (),
      .error (), 0⟩ "love it").1, ?_, ?_, ?_⟩
  · exact (c5_classifier_fallback (fun _ => none) "no json here"
      ⟨.ok (), .ok (), .error (), fun _ => none, .error (), .error (),
        .error (), .error (), .error (), 0⟩ "love it").2.2.1
      (.obj [("response", .str "no json here")]) rfl (Or.inl (by decide))
  · exact ((c5_classifier_fallback
      (fun s => if s = "\x7b\"sentiment\":\"positive\"\x7d" then
        some (.obj [("sentiment", .str "positive")]) else none)
      "\x7b\"sentiment\":\"positive\"\x7d"
      ⟨.ok (), .ok (), .error (), fun _ => none, .error (), .error (),
        .error (), .error (), .error (), 0⟩ "love it").2.2.2.2.1
      (.obj [("response", .str "\x7b\"sentiment\":\"positive\"\x7d")]) 0 23
      [("sentiment", .str "positive")] rfl
      (by decide) (by decide) rfl).2.1 rfl
  · exact ((c5_classifier_fallback (fun _ => none) ""
      ⟨.ok (), .ok (), .error (), fun _ => none, .error (), .error (),
        .error (), .error (), .error (), 0⟩ "love it").2.2.2.2.2
      (by decide) rfl rfl).1

/-- C1: for every ingest request with a non-empty `text` in which both
D1 statements succeed (the raw submission is persisted), the handler
returns HTTP 200 with `success: true`, for every combination of
outcomes of the classifier call, the count update, the summary merge
and the example-set update. -/
theorem c1_ingest_always_succeeds (t : String) (e : IngestEnv)
    (ht : t ≠ "") (h1 : e.dbCreate = Except.ok ())
    (h2 : e.dbInsert = Except.ok ()) :
    (fetchIngest (some t) e).1.status = 200 ∧
    (fetchIngest (some t) e).1.isSuccess = true := by
  unfold fetchIngest
  rw [h1, h2]
  simp [ht, IngestOutcome.status, IngestOutcome.isSuccess]

/-- C1 witness: with every downstream call failing (classifier, both KV
reads, merge call, summary put, examples read), a persisted submission
still gets a 200 success response. -/
theorem c1_ingest_always_succeeds_witness :
    (fetchIngest (some "great app")
      ⟨.ok (), .ok (), .error (), fun _ => none, .error (), .error (),
        .error (), .error (), .error (), 0⟩).1.status = 200 ∧
    (fetchIngest (some "great app")
      ⟨.ok (), .ok (), .error (), fun _ => none, .error (), .error (),
        .error (), .error (), .error (), 0⟩).1.isSuccess = true :=
  c1_ingest_always_succeeds "great app" _ (by decide) rfl rfl

/-- Bridge between the per-request decision tree and the sequential
update model: on an absent slot they agree for every parse oracle. -/
theorem exUpdate_none_eq_addExample (jp : String → Option Json) (q : ℚ)
    (t : String) : exUpdate none t q = addExample none jp q t := rfl

/-- Bridge, stored-array case: when the stored string parses back to the
previously written array, the sequential update model computes exactly
what the request's decision tree computes. -/
theorem exUpdate_some_eq_addExample (jp : String → Option Json) (q : ℚ)
    (t s : String) (l : List Json) (h : jp s = some (.arr l)) :
    exUpdate (some l) t q = addExample (some s) jp q t := by
  simp [exUpdate, addExample, h]

/-- C7: after any sequence of example-set updates starting from an
absent example set, the stored examples sequence has length at most
3. -/
theorem c7_examples_length_bounded (updates : List (String × ℚ)) :
    exLen (exAfter updates) ≤ 3 := by
  suffices h : ∀ s : Option (List Json), exLen s ≤ 3 →
      exLen (updates.foldl (fun s u => some (exUpdate s u.1 u.2)) s) ≤ 3 by
    exact h none (by simp [exLen])
  induction updates with
  | nil => intro s hs; exact hs
  | cons u us ih =>
    intro s hs
    apply ih
    cases s with
    | none => simp [exLen, exUpdate]
    | some l =>
      by_cases hl : l.length < 3
      · simp only [exLen, exUpdate, if_pos hl, List.length_append,
          List.length_singleton]
        omega
      · simp only [exLen, exUpdate, if_neg hl, List.length_set]
        exact hs

theorem doneCount_cInit (n : Nat) : doneCount (cInit n) = 0 := by
  simp [doneCount, cInit]

theorem filter_update_card {n : Nat} (d : Fin n → Bool) (i : Fin n)
    (h : d i = false) :
    (Finset.univ.filter (fun j => Function.update d i true j = true)).card =
      (Finset.univ.filter (fun j => d j = true)).card + 1 := by
  have hset : Finset.univ.filter (fun j => Function.update d i true j = true) =
      insert i (Finset.univ.filter (fun j => d j = true)) := by
    ext j
    by_cases hj : j = i
    · subst hj; simp [Function.update_apply]
    · simp [Function.update_apply, hj]
  rw [hset, Finset.card_insert_of_not_mem (by simp [h])]

theorem cInv_cInit (n : Nat) : CInv (cInit n) := by
  refine ⟨fun _ => doneCount_cInit n, ?_, ?_⟩
  · intro str h; cases h
  · intro i r h; cases h

theorem cStep_inv {n : Nat} (s s' : CState n) (e : CEv n)
    (hstep : cStep s e = some s') (hinv : CInv s) : CInv s' := by
  cases e with
  | rd i =>
    cases hri : s.readv i with
    | some r => simp [cStep, hri] at hstep
    | none =>
      simp only [cStep, hri] at hstep
      injection hstep with hstep
      subst hstep
      refine ⟨hinv.1, hinv.2.1, ?_⟩
      intro i' r hr'
      by_cases hii : i' = i
      · subst hii
        dsimp only at hr'
        rw [Function.update_same] at hr'
        injection hr' with hr'
        subst hr'
        cases hst : s.store with
        | none => exact Or.inl rfl
        | some str =>
          rcases hinv.2.1 str hst with ⟨v, h1, h2, rfl⟩
          exact Or.inr ⟨v, h1, h2, rfl⟩
      · dsimp only at hr'
        rw [Function.update_noteq hii] at hr'
        exact hinv.2.2 i' r hr'
  | wr i =>
    cases hdi : s.done i with
    | true => simp [cStep, hdi] at hstep
    | false =>
      cases hri : s.readv i with
      | none => simp [cStep, hdi, hri] at hstep
      | some r =>
        simp only [cStep, hdi, Bool.false_eq_true, if_false, hri] at hstep
        injection hstep with hstep
        subst hstep
        have hcount : doneCount { s with
            store := some (jsIntToString (jsIncrement r))
            done := Function.update s.done i true } = doneCount s + 1 := by
          show (Finset.univ.filter
            (fun j => Function.update s.done i true j = true)).card = _
          exact filter_update_card s.done i hdi
        refine ⟨?_, ?_, ?_⟩
        · intro h; cases h
        · intro str hstr
          injection hstr with hstr
          rcases hinv.2.2 i r hri with hr0 | ⟨u, hu1, hu2, hru⟩
          · subst hr0
            refine ⟨1, le_rfl, ?_, ?_⟩
            · rw [hcount]; omega
            · rw [← hstr]; rfl
          · subst hru
            refine ⟨u + 1, by omega, ?_, ?_⟩
            · rw [hcount]; omega
            · rw [← hstr, jsIncrement_roundTrip]
              norm_num
        · intro i' r' hr'
          rcases hinv.2.2 i' r' hr' with hr0 | ⟨u, hu1, hu2, hru⟩
          · exact Or.inl hr0
          · refine Or.inr ⟨u, hu1, ?_, hru⟩
            rw [hcount]; omega

theorem cRun_inv {n : Nat} : ∀ (evs : List (CEv n)) (s s' : CState n),
    cRun s evs = some s' → CInv s → CInv s' := by
  intro evs
  induction evs with
  | nil =>
    intro s s' h hs
    injection h with h
    subst h
    exact hs
  | cons e es ih =>
    intro s s' h hs
    rw [cRun] at h
    cases hst : cStep s e with
    | none => rw [hst] at h; cases h
    | some s1 =>
      rw [hst] at h
      exact ih s1 s' h (cStep_inv s s1 e hst hs)

/-- C9: for any number `n` of workers racing their read-then-write count
updates on one category key from an absent initial value, under every
interleaving of the storage operations, once at least one worker's write
has completed the stored value is `String(v)` for some `v` with
`1 ≤ v ≤ n`: lost updates may make it undercount, but it never exceeds
the number of submissions and is never absent or zero after a completed
write. -/
theorem c9_occurrences_range (n : Nat) (evs : List (CEv n))
    (s : CState n) (hrun : cRun (cInit n) evs = some s) (i : Fin n)
    (hi : s.done i = true) :
    ∃ v : Nat, s.store = some (jsIntToString (v : Int)) ∧ 1 ≤ v ∧ v ≤ n := by
  have hinv := cRun_inv evs (cInit n) s hrun (cInv_cInit n)
  have hpos : 0 < doneCount s := Finset.card_pos.mpr ⟨i, by simp [hi]⟩
  cases hst : s.store with
  | none =>
    rw [hinv.1 hst] at hpos
    exact absurd hpos (by omega)
  | some str =>
    rcases hinv.2.1 str hst with ⟨v, h1, h2, rfl⟩
    refine ⟨v, rfl, h1, h2.trans ?_⟩
    calc doneCount s ≤ Finset.univ.card := Finset.card_filter_le _ _
    _ = n := by simp

/-- C9 witness: two workers that both read the absent value and then
both write end with the stored count `"1"` — a lost update, still
within the range `[1, 2]`. -/
theorem c9_occurrences_range_witness :
    ∃ v : Nat,
      ((cRun (cInit 2) [CEv.rd 0, CEv.rd 1, CEv.wr 0, CEv.wr 1]).getD
        (cInit 2)).store = some (jsIntToString (v : Int)) ∧
      1 ≤ v ∧ v ≤ 2 :=
  c9_occurrences_range 2 [CEv.rd 0, CEv.rd 1, CEv.wr 0, CEv.wr 1] _ rfl 0 rfl

end FeedbackWorker
